import Mathlib

/-!
Formal model of the receipt field-extraction and deduplication pipeline of
this repository (scripts/receipt_db.py and scripts/handler.py), together
with theorems checking the specified properties against the code.

Modelling conventions, used throughout:
* Python strings are Lean String values; character-level work is done on
  String.data (a List Char).  Python len agrees with String.length.
* Python regular expressions are embedded as specialised matcher functions
  that scan positions left to right (re.search semantics).  The character
  classes are modelled at ASCII precision: a backslash-d digit is 0-9, a
  backslash-w word character is an ASCII letter, digit or underscore, and a
  backslash-s space is one of space, tab, newline, carriage return, vertical
  tab and form feed.  The patterns of the source contain only bounded
  quantifiers over digit runs; greedy matching with the (provably fruitless)
  backtracking alternatives pruned is implemented directly.
* Machine floats are modelled as Rat: every numeric literal handled by the
  claims is exact in this model, and str/float round-trips of the source are
  the identity here.
* sqlite3 state is an explicit DB value (list of rows plus the AUTOINCREMENT
  counter); each CLI operation is a function from DB to DB paired with its
  reported outcome.
-/

/-! Character helpers shared by the matcher embeddings. -/

/-- Digit class of the source's regexes (ASCII 0-9). -/
def isDigitCh (c : Char) : Bool := 48 ≤ c.toNat && c.toNat ≤ 57

/-- Numeric value of an ASCII digit. -/
def dval (c : Char) : Nat := c.toNat - 48

/-- Word-character class used by the regex word-boundary assertion. -/
def isWordCh (c : Char) : Bool :=
  isDigitCh c || (65 ≤ c.toNat && c.toNat ≤ 90) || (97 ≤ c.toNat && c.toNat ≤ 122) || c = '_'

/-- Whitespace class of the regexes and of Python str.strip / float. -/
def isSpaceCh (c : Char) : Bool :=
  c = ' ' || c = '\t' || c = '\n' || c = '\x0d' || c = '\x0b' || c = '\x0c'

/-- Date separator class of DATE_PATTERNS. -/
def isSepCh (c : Char) : Bool := c = '-' || c = '/'

/-- Tests whether the list starts with the given pattern. -/
def listStartsWith : List Char → List Char → Bool
  | _, [] => true
  | [], _ :: _ => false
  | c :: cs, p :: ps => c = p && listStartsWith cs ps

/-- Substring test (Python in-operator on str). -/
def containsSub : List Char → List Char → Bool
  | [], needle => listStartsWith [] needle
  | c :: t, needle => listStartsWith (c :: t) needle || containsSub t needle

/-- Word-boundary test against the character left of the current position
(none at the very start of the text). -/
def prevNonWord : Option Char → Bool
  | none => true
  | some c => !isWordCh c

/-! Date extraction: DATE_PATTERNS and normalize_date
(scripts/receipt_db.py lines 44-47 and 136-149). -/

/-- Parses a one-or-two digit group followed by a date separator, returning
the value and the remaining characters.  Greedy: two digits are preferred;
the one-digit alternative can only succeed when the second character is
itself a separator, so the committed choice is faithful to the regex. -/
def parseNumSep : List Char → Option (Nat × List Char)
  | d1 :: d2 :: s :: rest =>
    if isDigitCh d1 && isDigitCh d2 && isSepCh s then some (10 * dval d1 + dval d2, rest)
    else if isDigitCh d1 && isSepCh d2 then some (dval d1, s :: rest)
    else none
  | [d1, s] => if isDigitCh d1 && isSepCh s then some (dval d1, []) else none
  | _ => none

/-- Word boundary at the front of the remaining characters. -/
def boundaryOk : List Char → Bool
  | [] => true
  | c :: _ => !isWordCh c

/-- Parses a one-or-two digit group followed by a word boundary.  When two
digits are present the one-digit alternative faces a digit on its right and
can never provide the boundary, so greedy parsing is again faithful. -/
def parseNumBoundary : List Char → Option Nat
  | d1 :: d2 :: rest =>
    if isDigitCh d1 && isDigitCh d2 then
      if boundaryOk rest then some (10 * dval d1 + dval d2) else none
    else if isDigitCh d1 && !isWordCh d2 then some (dval d1)
    else none
  | [d1] => if isDigitCh d1 then some (dval d1) else none
  | [] => none

/-- Match of the first DATE_PATTERNS entry (the ISO family: 20dd, separator,
one or two digits, separator, one or two digits, between word boundaries)
anchored at the current position, given the character to the left.
Returns (year, month, day). -/
def matchISOAt (prev : Option Char) : List Char → Option (Nat × Nat × Nat)
  | '2' :: '0' :: a :: b :: s :: rest =>
    if prevNonWord prev && isDigitCh a && isDigitCh b && isSepCh s then
      match parseNumSep rest with
      | some (mo, rest2) =>
        match parseNumBoundary rest2 with
        | some d => some (2000 + 10 * dval a + dval b, mo, d)
        | none => none
      | none => none
    else none
  | _ => none

/-- Match of the second DATE_PATTERNS entry (the US family: one or two
digits, separator, one or two digits, separator, 20dd, between word
boundaries) anchored at the current position.  Returns the groups regrouped
as (year, month, day) the way normalize_date reads them. -/
def matchUSAt (prev : Option Char) (cs : List Char) : Option (Nat × Nat × Nat) :=
  if prevNonWord prev then
    match parseNumSep cs with
    | some (mo, r1) =>
      match parseNumSep r1 with
      | some (d, r2) =>
        match r2 with
        | '2' :: '0' :: a :: b :: r3 =>
          if isDigitCh a && isDigitCh b && boundaryOk r3 then
            some (2000 + 10 * dval a + dval b, mo, d)
          else none
        | _ => none
      | none => none
    | none => none
  else none

/-- re.search for a date family: try every start position left to right. -/
def searchDate (f : Option Char → List Char → Option (Nat × Nat × Nat)) :
    Option Char → List Char → Option (Nat × Nat × Nat)
  | prev, [] => f prev []
  | prev, c :: t =>
    match f prev (c :: t) with
    | some r => some r
    | none => searchDate f (some c) t

/-- Gregorian leap-year test, as datetime.date uses. -/
def isLeap (y : Nat) : Bool := y % 4 = 0 && (y % 100 ≠ 0 || y % 400 = 0)

/-- Days in a month, as datetime.date uses. -/
def daysInMonth (y mo : Nat) : Nat :=
  if mo = 2 then (if isLeap y then 29 else 28)
  else if mo = 4 || mo = 6 || mo = 9 || mo = 11 then 30
  else 31

/-- Validity check performed by the datetime.date constructor. -/
def validDate (y mo d : Nat) : Bool :=
  1 ≤ y && y ≤ 9999 && 1 ≤ mo && mo ≤ 12 && 1 ≤ d && d ≤ daysInMonth y mo

/-- Zero-padded two-digit rendering. -/
def pad2 (n : Nat) : String := if n < 10 then "0" ++ toString n else toString n

/-- Zero-padded four-digit rendering. -/
def pad4 (n : Nat) : String :=
  if n < 10 then "000" ++ toString n
  else if n < 100 then "00" ++ toString n
  else if n < 1000 then "0" ++ toString n
  else toString n

/-- datetime.date(y, mo, d).isoformat(). -/
def isoFormat (y mo d : Nat) : String := pad4 y ++ "-" ++ pad2 mo ++ "-" ++ pad2 d

/-- datetime.date construction followed by isoformat: none on an invalid
calendar date (the except-branch of normalize_date). -/
def mkDate (t : Nat × Nat × Nat) : Option String :=
  if validDate t.1 t.2.1 t.2.2 then some (isoFormat t.1 t.2.1 t.2.2) else none

/-- normalize_date of the source: the first match of the ISO family is taken
if it forms a valid calendar date; otherwise (no match, or an invalid date)
the loop continues with the US family; otherwise none. -/
def normalize_date (text : String) : Option String :=
  match (searchDate matchISOAt none text.data).bind mkDate with
  | some s => some s
  | none => (searchDate matchUSAt none text.data).bind mkDate

/-! Amount extraction: AMOUNT_PATTERNS and parse_total_and_currency
(scripts/receipt_db.py lines 49-52 and 152-167). -/

/-- Currency-symbol class of AMOUNT_PATTERNS. -/
def isCurrencySym (c : Char) : Bool := c = '$' || c = '€' || c = '£' || c = '¥'

/-- Currency code of a leading symbol, exactly the mapping of the source. -/
def symCurrency (c : Char) : Option String :=
  if c = '$' then some "USD"
  else if c = '€' then some "EUR"
  else if c = '£' then some "GBP"
  else if c = '¥' then some "CNY"
  else none

/-- Case-insensitive literal match: drops the (lower-case) pattern from the
front of the text, comparing lowered characters. -/
def ciDrop : List Char → List Char → Option (List Char)
  | [], cs => some cs
  | _ :: _, [] => none
  | p :: ps, c :: cs => if Char.toLower c = p then ciDrop ps cs else none

/-- Captured amount group: an optional (or, for the second pattern, required)
currency symbol, an optional single space character, a nonempty digit run, a
dot or comma, and two digits.  Returns the captured characters.  The digit
run is taken greedily; a shorter run would face a digit where the separator
is required, so no backtracking alternative is lost. -/
def amountGroup (symRequired : Bool) (cs : List Char) : Option (List Char) :=
  let sp : List Char × List Char :=
    match cs with
    | c :: t => if isCurrencySym c then ([c], t) else ([], cs)
    | [] => ([], cs)
  if symRequired && sp.1.isEmpty then none else
  let wp : List Char × List Char :=
    match sp.2 with
    | c :: t => if isSpaceCh c then ([c], t) else ([], sp.2)
    | [] => ([], sp.2)
  let ds := wp.2.takeWhile isDigitCh
  if ds.isEmpty then none else
  match wp.2.dropWhile isDigitCh with
  | s :: d1 :: d2 :: _ =>
    if (s = '.' || s = ',') && isDigitCh d1 && isDigitCh d2 then
      some (sp.1 ++ wp.1 ++ ds ++ [s, d1, d2])
    else none
  | _ => none

/-- First AMOUNT_PATTERNS entry anchored at the current position: a label
(total, amount or sum, case-insensitively), optional spaces, an optional
ASCII or full-width colon, optional spaces, then the captured amount group
with an optional symbol.  Greedy space handling is faithful: the label
alternatives start with distinct letters and the space runs are fixed. -/
def labelledAmountAt (cs : List Char) : Option (List Char) :=
  match (ciDrop "total".data cs).or ((ciDrop "amount".data cs).or (ciDrop "sum".data cs)) with
  | none => none
  | some rest =>
    let r1 := rest.dropWhile isSpaceCh
    let r2 : List Char :=
      match r1 with
      | c :: t => if c = ':' || c = '：' then t else r1
      | [] => r1
    amountGroup false (r2.dropWhile isSpaceCh)

/-- Second AMOUNT_PATTERNS entry anchored at the current position: a bare
amount with a required currency symbol. -/
def bareAmountAt (cs : List Char) : Option (List Char) :=
  amountGroup true cs

/-- re.search over an amount pattern: scan start positions left to right. -/
def searchAmount (f : List Char → Option (List Char)) : List Char → Option (List Char)
  | [] => f []
  | c :: t =>
    match f (c :: t) with
    | some g => some g
    | none => searchAmount f t

/-- Natural number denoted by a digit run. -/
def digitsVal (ds : List Char) : Nat := ds.foldl (fun a c => 10 * a + dval c) 0

/-- Processing of a captured group, as the loop body of the source: remove
space characters, read and strip a leading currency symbol into its code,
turn a comma into a dot, and convert with float().  float tolerates leading
whitespace (a captured tab survives the space removal).  On the groups the
patterns can produce the conversion always succeeds; the none case mirrors
the except-branch that would fall through to the next pattern. -/
def processAmount (g : List Char) : Option (Rat × Option String) :=
  let raw := g.filter (fun c => c ≠ ' ')
  let cp : Option String × List Char :=
    match raw with
    | c :: t => if isCurrencySym c then (symCurrency c, t) else (none, raw)
    | [] => (none, raw)
  let r2 := cp.2.map (fun c => if c = ',' then '.' else c)
  let r3 := r2.dropWhile isSpaceCh
  let ip := r3.takeWhile isDigitCh
  match r3.dropWhile isDigitCh with
  | '.' :: d1 :: d2 :: [] =>
    if isDigitCh d1 && isDigitCh d2 && !ip.isEmpty then
      some (mkRat (digitsVal ip * 100 + (10 * dval d1 + dval d2) : Nat) 100, cp.1)
    else none
  | _ => none

/-- One iteration of the pattern loop of parse_total_and_currency: search
the pattern, and on a match convert the captured group; a failed conversion
(impossible for produced groups, but mirrored) falls through like the
except-branch. -/
def tryAmountPattern (f : List Char → Option (List Char)) (cs : List Char) :
    Option (Rat × Option String) :=
  match searchAmount f cs with
  | some g => processAmount g
  | none => none

/-- parse_total_and_currency of the source: the labelled family first, the
bare symbol-prefixed family second, (None, None) when neither yields. -/
def parse_total_and_currency (text : String) : Option Rat × Option String :=
  match tryAmountPattern labelledAmountAt text.data with
  | some (v, c) => (some v, c)
  | none =>
    match tryAmountPattern bareAmountAt text.data with
    | some (v, c) => (some v, c)
    | none => (none, none)

/-! Vendor extraction: parse_vendor (scripts/receipt_db.py lines 170-179). -/

/-- Python str.lower(), character by character (ASCII precision, matching
the ASCII modelling of the pattern classes). -/
def strLower (s : String) : String := ⟨s.data.map Char.toLower⟩

/-- Python str.strip(): remove leading and trailing whitespace. -/
def pyStrip (s : String) : String :=
  ⟨((s.data.dropWhile isSpaceCh).reverse.dropWhile isSpaceCh).reverse⟩

/-- Line splitting on the newline character.  Python splitlines also breaks
on a carriage return; texts using backslash-r-backslash-n endings agree with
this model because the stray carriage return is stripped, and the claims
only concern newline-separated text. -/
def splitNl : List Char → List (List Char)
  | [] => [[]]
  | '\n' :: t => [] :: splitNl t
  | c :: t =>
    match splitNl t with
    | [] => [[c]]
    | h :: r => (c :: h) :: r

/-- The stripped non-blank lines of the text, as the comprehension of
parse_vendor builds them. -/
def pyLines (text : String) : List String :=
  ((splitNl text.data).map (fun cs => pyStrip ⟨cs⟩)).filter (fun s => s ≠ "")

/-- Boilerplate filter of parse_vendor: a case-insensitive substring search
for receipt, invoice, tax, total, date or thank. -/
def hasBoilerplate (ln : String) : Bool :=
  (["receipt", "invoice", "tax", "total", "date", "thank"].map String.data).any
    (fun k => containsSub (strLower ln).data k)

/-- Python string slicing s[:n]. -/
def strTake (s : String) (n : Nat) : String := ⟨s.data.take n⟩

/-- The for-loop of parse_vendor over the first six non-blank lines: skip a
boilerplate line, return the first line of length 2 to 48. -/
def pickVendor : List String → Option String
  | [] => none
  | ln :: rest =>
    if hasBoilerplate ln then pickVendor rest
    else if 2 ≤ ln.length && ln.length ≤ 48 then some ln
    else pickVendor rest

/-- parse_vendor of the source: none when the text has no non-blank lines;
otherwise the loop result, falling back to the first non-blank line
truncated to 48 characters. -/
def parse_vendor (text : String) : Option String :=
  match pyLines text with
  | [] => none
  | l0 :: rest =>
    match pickVendor ((l0 :: rest).take 6) with
    | some v => some v
    | none => some (strTake l0 48)

/-! Category inference: CATEGORIES and auto_category
(scripts/receipt_db.py lines 34-42 and 182-187). -/

/-- The fixed ordered category keyword mapping of the source (Python dicts
preserve insertion order, so iteration follows this list order). -/
def CATEGORIES : List (String × List String) :=
  [("grocery", ["supermarket", "grocery", "freshco", "whole foods", "costco", "market", "mart", "trader joe", "save on"]),
   ("dining", ["restaurant", "cafe", "coffee", "tea", "diner", "pizza", "burger", "sushi", "bbq", "kitchen"]),
   ("transport", ["uber", "lyft", "taxi", "gas", "fuel", "petro", "shell", "chevron", "parking", "transit"]),
   ("health", ["pharmacy", "drug", "clinic", "hospital", "dental", "health", "medicine"]),
   ("shopping", ["amazon", "walmart", "target", "store", "shop", "mall", "ikea", "best buy"]),
   ("travel", ["hotel", "airbnb", "airlines", "flight", "booking", "expedia"]),
   ("utilities", ["hydro", "electric", "internet", "phone", "water", "utility", "telus", "rogers", "bell"])]

/-- The for-loop of auto_category: first category whose keyword list has a
substring match against the blob wins. -/
def catLookup (blob : String) : List (String × List String) → String
  | [] => "other"
  | (cat, kws) :: rest =>
    if kws.any (fun kw => containsSub blob.data kw.data) then cat else catLookup blob rest

/-- auto_category of the source: lower-case the vendor-plus-text blob (a
falsy vendor contributes the empty string) and look it up in order. -/
def auto_category (vendor : Option String) (text : String) : String :=
  catLookup (strLower ((vendor.getD "") ++ " " ++ text)) CATEGORIES

/-! Content-addressed image store: sha256_file and copy_image_dedup
(scripts/receipt_db.py lines 97-112).  The cryptographic digest itself is
not re-implemented; every theorem below is parametric in the digest
function, using only that it is a function of the byte content alone, which
is all the source relies on (sha256_file streams the bytes of the file and
nothing else).  Concrete instantiations use an explicit injective-enough
stand-in on the tiny byte lists involved. -/

/-- A source image file: its final path component and its byte content. -/
structure ImageFile where
  name : String
  content : List Nat
deriving DecidableEq

/-- Python pathlib suffix of a file name: the part from the last dot on,
empty when the dot is absent, leading or trailing. -/
def pySuffix (name : String) : String :=
  let rev := name.data.reverse
  let after := rev.takeWhile (fun c => c ≠ '.')
  match rev.dropWhile (fun c => c ≠ '.') with
  | '.' :: before => if before.isEmpty || after.isEmpty then "" else ⟨'.' :: after.reverse⟩
  | _ => ""

/-- copy_image_dedup of the source: the destination is the digest plus the
lower-cased original extension (defaulting to .jpg) under the images root;
the file itself is copied only when absent, which does not change the
returned pair.  Returns (path relative to the project root, digest). -/
def copy_image_dedup (sha256 : List Nat → String) (src : ImageFile) : String × String :=
  let ext := if strLower (pySuffix src.name) = "" then ".jpg" else strLower (pySuffix src.name)
  let digest := sha256 src.content
  ("data/receipts/images/" ++ digest ++ ext, digest)

/-! Record store state.  The receipts table of init_db (scripts/receipt_db.py
lines 66-94) keyed by AUTOINCREMENT id with the UNIQUE image_sha256 column;
a DB value is the ordered list of rows plus the next id the engine would
assign.  created_at, items_json and meta_json are carried by the source row
but referenced by none of the specified properties, and are omitted from the
row model. -/

structure Receipt where
  id : Nat
  vendor : Option String
  receipt_date : Option String
  currency : Option String
  total : Option Rat
  category : Option String
  image_path : String
  image_sha256 : String
  ocr_text : Option String
deriving DecidableEq

structure DB where
  receipts : List Receipt
  nextId : Nat
deriving DecidableEq

/-- The freshly initialised store. -/
def emptyDB : DB := { receipts := [], nextId := 1 }

/-- SELECT by id (show_receipt's point lookup, scripts/receipt_db.py
lines 336-355; the id column is the unique primary key). -/
def get_receipt (db : DB) (i : Nat) : Option Receipt :=
  db.receipts.find? (fun r => r.id == i)

/-- The dedup invariant enforced by the UNIQUE constraint on image_sha256. -/
def UniqueHash (db : DB) : Prop := (db.receipts.map Receipt.image_sha256).Nodup

/-- Well-formed AUTOINCREMENT counter: every stored id is below nextId. -/
def WFIds (db : DB) : Prop := ∀ r ∈ db.receipts, r.id < db.nextId

instance : DecidablePred UniqueHash := fun db =>
  inferInstanceAs (Decidable (db.receipts.map Receipt.image_sha256).Nodup)

instance : DecidablePred WFIds := fun db =>
  inferInstanceAs (Decidable (∀ r ∈ db.receipts, r.id < db.nextId))

/-! Ingestion: add_receipt (scripts/receipt_db.py lines 214-311).  The
filesystem preconditions of the source (path-traversal and home-directory
checks, existence of the image) are outside the store model: add_receipt is
modelled on their success path.  The optional OCR fallback
(try_ocr_tesseract) is an external process; its outcome is the ocr
parameter, none when tesseract is unavailable or fails and a nonempty
transcript otherwise.  The items-json argument and the parse_items result
feed only the omitted items_json column. -/

/-- Optional command-line arguments of the add subcommand. -/
structure AddArgs where
  text : Option String
  vendor : Option String
  date : Option String
  total : Option Rat
  currency : Option String
  category : Option String
deriving DecidableEq

/-- The all-defaults argument set. -/
def noArgs : AddArgs := ⟨none, none, none, none, none, none⟩

/-- Python or on an optional string against a fallback: an absent or empty
string falls through. -/
def pyOrStr (a : Option String) (b : Option String) : Option String :=
  match a with
  | some s => if s = "" then b else some s
  | none => b

/-- Python str.upper(), character by character (ASCII precision). -/
def strUpper (s : String) : String := ⟨s.data.map Char.toUpper⟩

/-- Outcome reported by add_receipt on stdout. -/
inductive AddResult where
  | dup (receipt_id : Nat) (image : String)
  | ok (receipt_id : Nat) (vendor : Option String) (date : Option String)
       (total : Option Rat) (currency : Option String) (category : String)
       (image : String)
deriving DecidableEq

/-- add_receipt of the source, from the dedup copy to the duplicate check
and the insert: extraction fills every field the caller did not supply;
a row whose image_sha256 is already present short-circuits into a duplicate
report before any insert. -/
def add_receipt (sha256 : List Nat → String) (db : DB) (img : ImageFile)
    (args : AddArgs) (ocr : Option String) : DB × AddResult :=
  let cd := copy_image_dedup sha256 img
  let stripped : Option String :=
    match args.text with
    | some t => if t = "" then none else some (pyStrip t)
    | none => none
  let ocr_text : Option String :=
    match stripped with
    | some s => if s = "" then (match ocr with | some o => if o = "" then none else some o | none => none) else some s
    | none => match ocr with | some o => if o = "" then none else some o | none => none
  let text_for_parse := ocr_text.getD ""
  let vendor := pyOrStr args.vendor (parse_vendor text_for_parse)
  let receipt_date := pyOrStr args.date (normalize_date text_for_parse)
  let tc : Option Rat × Option String :=
    match args.total with
    | some t => (some t, none)
    | none => parse_total_and_currency text_for_parse
  let currency : Option String :=
    match args.currency with
    | some c => if c = "" then tc.2 else some (strUpper c)
    | none => tc.2
  let category : String :=
    match args.category with
    | some c => if c = "" then auto_category vendor text_for_parse else c
    | none => auto_category vendor text_for_parse
  match db.receipts.find? (fun r => r.image_sha256 == cd.2) with
  | some r => (db, AddResult.dup r.id cd.1)
  | none =>
    let row : Receipt :=
      { id := db.nextId, vendor := vendor, receipt_date := receipt_date,
        currency := currency, total := tc.1, category := some category,
        image_path := cd.1, image_sha256 := cd.2, ocr_text := ocr_text }
    ({ receipts := db.receipts ++ [row], nextId := db.nextId + 1 },
     AddResult.ok db.nextId vendor receipt_date tc.1 currency category cd.1)

/-! Deletion: delete_receipt (scripts/receipt_db.py lines 501-532). -/

/-- Outcome reported by delete_receipt (exit codes 1, 2, 0). -/
inductive DelResult where
  | notFound
  | confirmRequired
  | ok
deriving DecidableEq

/-- delete_receipt of the source: unknown id reports not-found; a known id
without the confirmation flag reports confirm_required and mutates nothing;
with the flag the row is deleted.  The optional removal of the stored image
file is a filesystem effect outside the store state. -/
def delete_receipt (db : DB) (i : Nat) (yes : Bool) (_deleteImage : Bool) : DB × DelResult :=
  match db.receipts.find? (fun r => r.id == i) with
  | none => (db, DelResult.notFound)
  | some _ =>
    if !yes then (db, DelResult.confirmRequired)
    else ({ receipts := db.receipts.filter (fun r => r.id ≠ i), nextId := db.nextId }, DelResult.ok)

/-- A digest stand-in for concrete instantiations: the decimal bytes joined
by dashes (injective on byte lists, like the real digest in practice). -/
def demoDigest (bs : List Nat) : String :=
  bs.foldl (fun acc b => acc ++ "-" ++ toString b) "d"

/-! JSON-over-stdin adapter: sanitize_string, validate_path and handle
(scripts/handler.py lines 16-92).  An incoming JSON object is modelled with
an Option per key (none = key absent); the claims concern numeric totals, so
the total is a Rat (the JSON number), and the str/float round-trip through
the subprocess command line is the identity on this model.  The subprocess
call runs add_receipt on the same store; the image file the validated path
denotes is supplied explicitly.  add_receipt requires the image flag, so an
empty validated path makes the subprocess exit nonzero and the handler
report an error without touching the store. -/

structure HandleData where
  vendor : Option String
  total : Option Rat
  date : Option String
  currency : Option String
  category : Option String
  image : Option String
  text : Option String
deriving DecidableEq

/-- sanitize_string of the handler: drop shell metacharacters and cap the
length.  The character with code 96 is the backquote. -/
def sanitize_string (s : String) (maxLen : Nat) : String :=
  ⟨(s.data.filter (fun c =>
      !(c = ';' || c = '&' || c = '|' || c.toNat = 96 || c = '$' || c = '<' || c = '>'))).take maxLen⟩

/-- Path characters admitted by validate_path's allow-list class: word
characters, dash, dot and slash. -/
def isPathCh (c : Char) : Bool := isWordCh c || c = '-' || c = '.' || c = '/'

/-- validate_path of the handler: empty, a character outside the allow-list,
or a dot-dot anywhere all map to the empty string.  The anchored pattern
also accepts a single trailing newline (re dollar semantics). -/
def validate_path (p : String) : String :=
  if p = "" then ""
  else if !(p.data.all isPathCh ||
            (p.data.reverse.headD ' ' = '\n' && (p.data.dropLast ≠ [] && p.data.dropLast.all isPathCh))) then ""
  else if containsSub p.data ['.', '.'] then ""
  else p

/-- Outcome of the handler: the ok message or the error string. -/
inductive HandleResult where
  | ok
  | err (msg : String)
deriving DecidableEq

/-- An optional flag value: the handler omits a flag for a falsy string, so
the subprocess sees none. -/
def optFlag (s : String) : Option String := if s = "" then none else some s

/-- handle of the handler source: required-key checks on vendor and total in
that order, vendor sanitisation, the total range gate, sanitisation of the
remaining fields with their defaults, path validation, and the subprocess
add_receipt invocation on the validated arguments. -/
def handle (sha256 : List Nat → String) (db : DB) (data : HandleData)
    (img : ImageFile) (ocr : Option String) : DB × HandleResult :=
  match data.vendor with
  | none => (db, HandleResult.err "missing vendor")
  | some v =>
    match data.total with
    | none => (db, HandleResult.err "missing total")
    | some t =>
      let vendor := sanitize_string v 100
      if vendor = "" then (db, HandleResult.err "invalid vendor")
      else if t < 0 ∨ t > 1000000 then (db, HandleResult.err "invalid total amount")
      else
        let date := sanitize_string (data.date.getD "") 20
        let currency := sanitize_string (data.currency.getD "CAD") 10
        let category := sanitize_string (data.category.getD "other") 50
        let imagePath := validate_path (data.image.getD "")
        let text := sanitize_string (data.text.getD "") 1000
        if imagePath = "" then (db, HandleResult.err "usage: image required")
        else
          let out := add_receipt sha256 db img
            { text := optFlag text, vendor := some vendor, date := optFlag date,
              total := some t, currency := optFlag currency, category := optFlag category }
            ocr
          (out.1, HandleResult.ok)

/-! Aggregation: summary (scripts/receipt_db.py lines 358-395). -/

/-- The month-format gate of summary (re.match of 20dd dash dd, with the
dollar anchor accepting one trailing newline). -/
def monthOk (m : String) : Bool :=
  match m.data with
  | '2' :: '0' :: a :: b :: '-' :: c :: d :: rest =>
    isDigitCh a && isDigitCh b && isDigitCh c && isDigitCh d && (rest = [] || rest = ['\n'])
  | _ => false

/-- Rows selected by receipt_date LIKE month dash percent: a non-null date
starting with the month key and a dash.  The keys the gate admits contain no
letters, so LIKE case-insensitivity is immaterial. -/
def monthRecords (db : DB) (month : String) : List Receipt :=
  db.receipts.filter (fun r =>
    match r.receipt_date with
    | some d => listStartsWith d.data (month.data ++ ['-'])
    | none => false)

/-- Exact rational addition written on numerator and denominator (equal to
Rat addition, as ratAdd_eq proves; spelled this way so that concrete
aggregates evaluate inside the kernel). -/
def ratAdd (a b : Rat) : Rat := mkRat (a.num * b.den + b.num * a.den) (a.den * b.den)

lemma ratAdd_eq (a b : Rat) : ratAdd a b = a + b := by
  rw [ratAdd, Rat.add_num_den, Rat.mkRat_eq_divInt]
  push_cast
  congr 1
  ring

/-- SQL SUM over the totals of a group, with COALESCE to zero: a NULL total
contributes nothing and an all-NULL group sums to zero. -/
def sumTotals (rs : List Receipt) : Rat :=
  rs.foldr (fun r acc => ratAdd (r.total.getD 0) acc) 0

/-- SQLite ROUND(x, 2): nearest with ties away from zero, written on the
numerator and denominator so that it evaluates inside the kernel. -/
def round2 (q : Rat) : Rat :=
  if 0 ≤ q.num then mkRat (Int.fdiv (200 * q.num + q.den) (2 * q.den)) 100
  else mkRat (-(Int.fdiv (200 * (-q.num) + q.den) (2 * q.den))) 100

/-- One output row of a GROUP BY query: key, COUNT and rounded SUM. -/
structure GroupRow where
  key : String
  count : Nat
  total : Rat
deriving DecidableEq

/-- Descending insertion by total (ORDER BY total DESC; ties keep the order
the grouping produced, as SQLite leaves tie order unspecified). -/
def insertRowDesc (x : GroupRow) : List GroupRow → List GroupRow
  | [] => [x]
  | y :: t => if y.total < x.total then x :: y :: t else y :: insertRowDesc x t

/-- Sort rows by descending total. -/
def sortRowsDesc (l : List GroupRow) : List GroupRow :=
  l.foldr insertRowDesc []

/-- GROUP BY with COUNT and rounded SUM over the month rows, keyed by the
given projection, ordered by descending total. -/
def groupRows (key : Receipt → String) (rs : List Receipt) : List GroupRow :=
  sortRowsDesc (((rs.map key).dedup).map (fun k =>
    { key := k, count := (rs.filter (fun r => key r = k)).length,
      total := round2 (sumTotals (rs.filter (fun r => key r = k))) }))

/-- The by-category query of summary.  The category column of a row inserted
by add_receipt is never NULL; a NULL category (possible only through manual
update) would group under the empty key the way sqlite3.Row renders None,
which no claim exercises. -/
def by_category (db : DB) (month : String) : List GroupRow :=
  groupRows (fun r => r.category.getD "") (monthRecords db month)

/-- The by-vendor query of summary: NULL vendor groups as Unknown, and only
the top vendor-limit rows by total are returned. -/
def by_vendor (db : DB) (month : String) (vendorLimit : Nat) : List GroupRow :=
  (groupRows (fun r => r.vendor.getD "Unknown") (monthRecords db month)).take vendorLimit

/-- The summary report. -/
structure SummaryOut where
  month : String
  byCategory : List GroupRow
  byVendor : List GroupRow
deriving DecidableEq

/-- summary of the source: the month gate first (exit code 2 on a malformed
key, modelled as none), then the two read-only aggregation queries. -/
def summary (db : DB) (month : String) (vendorLimit : Nat) : Option SummaryOut :=
  if monthOk month then
    some { month := month, byCategory := by_category db month,
           byVendor := by_vendor db month vendorLimit }
  else none

/-- summary as a store operation: it only ever reads, so the state component
is returned unchanged (the function runs SELECT statements only). -/
def summaryOp (db : DB) (month : String) (vendorLimit : Nat) : DB × Option SummaryOut :=
  (db, summary db month vendorLimit)

/-! Concrete fixtures used by the verification theorems below. -/

/-- A store holding three February 2026 receipts with totals 10, 20 and 30
split over two categories (the aggregation scenario of the specification). -/
def db3 : DB :=
  { receipts :=
      [{ id := 1, vendor := some "FreshCo", receipt_date := some "2026-02-05", currency := some "USD",
         total := some (mkRat 10 1), category := some "grocery", image_path := "p1",
         image_sha256 := "h1", ocr_text := none },
       { id := 2, vendor := some "FreshCo", receipt_date := some "2026-02-10", currency := some "USD",
         total := some (mkRat 20 1), category := some "grocery", image_path := "p2",
         image_sha256 := "h2", ocr_text := none },
       { id := 3, vendor := some "Cafe X", receipt_date := some "2026-02-20", currency := some "USD",
         total := some (mkRat 30 1), category := some "dining", image_path := "p3",
         image_sha256 := "h3", ocr_text := none }],
    nextId := 4 }

/-- The store after ingesting a 7-byte demo image into the empty store with
no explicit fields (checked below to be what add_receipt produces). -/
def c1DB1 : DB :=
  { receipts := [{ id := 1, vendor := none, receipt_date := none, currency := none,
                   total := none, category := some "other",
                   image_path := "data/receipts/images/d-7.jpg", image_sha256 := "d-7",
                   ocr_text := none }],
    nextId := 2 }

/-- Explicit fields supplied on a second ingestion attempt of the same
content (they must not matter). -/
def c1Args2 : AddArgs :=
  { text := some "Cafe X Total: $9.99", vendor := some "Else", date := some "2026-01-01",
    total := some (mkRat 5 1), currency := some "usd", category := some "dining" }

/-- A sample stored row for the deletion scenario. -/
def r7 : Receipt :=
  { id := 1, vendor := some "FreshCo", receipt_date := some "2026-02-05",
    currency := none, total := some (mkRat 10 1), category := some "grocery",
    image_path := "p1", image_sha256 := "h1", ocr_text := none }

/-- A one-record store for the deletion scenario. -/
def db7 : DB := { receipts := [r7], nextId := 2 }

/-- A well-formed request of the JSON adapter, without its total. -/
def c2Data (t : Rat) : HandleData :=
  { vendor := some "Shop", total := some t, date := some "2026-02-26", currency := none,
    category := none, image := some "r.jpg", text := none }

/-! Verification theorems. -/

lemma dval_le_nine {c : Char} (h : isDigitCh c = true) : dval c ≤ 9 := by
  simp only [isDigitCh, Bool.and_eq_true, decide_eq_true_eq] at h
  simp only [dval]
  omega

lemma matchISOAt_year {prev : Option Char} {cs : List Char} {r : Nat × Nat × Nat}
    (h : matchISOAt prev cs = some r) : 2000 ≤ r.1 ∧ r.1 ≤ 2099 := by
  unfold matchISOAt at h
  split at h
  case _ a b s rest =>
    split at h
    case isTrue hcond =>
      simp only [Bool.and_eq_true] at hcond
      have ha := dval_le_nine hcond.1.1.2
      have hb := dval_le_nine hcond.1.2
      split at h
      case _ mo rest2 hns =>
        split at h
        case _ d hnb =>
          cases h
          constructor <;> simp <;> omega
        case _ => exact absurd h (by simp)
      case _ => exact absurd h (by simp)
    case isFalse => exact absurd h (by simp)
  case _ => exact absurd h (by simp)

lemma matchUSAt_year {prev : Option Char} {cs : List Char} {r : Nat × Nat × Nat}
    (h : matchUSAt prev cs = some r) : 2000 ≤ r.1 ∧ r.1 ≤ 2099 := by
  unfold matchUSAt at h
  split at h
  case isTrue =>
    split at h
    case _ mo r1 hns =>
      split at h
      case _ d r2 hns2 =>
        split at h
        case _ a b r3 =>
          split at h
          case isTrue hcond =>
            simp only [Bool.and_eq_true] at hcond
            have ha := dval_le_nine hcond.1.1
            have hb := dval_le_nine hcond.1.2
            cases h
            constructor <;> simp <;> omega
          case isFalse => exact absurd h (by simp)
        case _ => exact absurd h (by simp)
      case _ => exact absurd h (by simp)
    case _ => exact absurd h (by simp)
  case isFalse => exact absurd h (by simp)

lemma searchDate_some {f : Option Char → List Char → Option (Nat × Nat × Nat)}
    {P : Nat × Nat × Nat → Prop}
    (hf : ∀ prev cs r, f prev cs = some r → P r) :
    ∀ prev cs r, searchDate f prev cs = some r → P r := by
  intro prev cs
  induction cs generalizing prev with
  | nil =>
    intro r h
    rw [searchDate] at h
    exact hf _ _ _ h
  | cons c t ih =>
    intro r h
    rw [searchDate] at h
    cases hm : f prev (c :: t) with
    | some r0 =>
      rw [hm] at h
      cases h
      exact hf _ _ _ hm
    | none =>
      rw [hm] at h
      exact ih _ _ h

lemma bind_mkDate_shape {o : Option (Nat × Nat × Nat)} {s : String}
    (h : o.bind mkDate = some s) :
    ∃ y mo d, o = some (y, mo, d) ∧ validDate y mo d = true ∧ s = isoFormat y mo d := by
  cases o with
  | none => simp at h
  | some t =>
    rw [Option.some_bind] at h
    unfold mkDate at h
    split_ifs at h with hv
    exact ⟨t.1, t.2.1, t.2.2, by simp, hv, (Option.some.inj h).symm⟩

lemma normalize_date_shape {text : String} {s : String} (h : normalize_date text = some s) :
    ∃ y mo d, (searchDate matchISOAt none text.data = some (y, mo, d) ∨
               searchDate matchUSAt none text.data = some (y, mo, d)) ∧
      validDate y mo d = true ∧ s = isoFormat y mo d := by
  unfold normalize_date at h
  cases hval : (searchDate matchISOAt none text.data).bind mkDate with
  | some s1 =>
    rw [hval] at h
    cases h
    obtain ⟨y, mo, d, h1, h2, h3⟩ := bind_mkDate_shape hval
    exact ⟨y, mo, d, Or.inl h1, h2, h3⟩
  | none =>
    rw [hval] at h
    obtain ⟨y, mo, d, h1, h2, h3⟩ := bind_mkDate_shape h
    exact ⟨y, mo, d, Or.inr h1, h2, h3⟩

/-- C4: the date extractor tries the ISO family first and the US family
second; only syntactically valid calendar dates are ever returned (an
invalid first match falls through and, with nothing else to match, yields no
date); text containing only 02/26/2026 yields 2026-02-26 and text containing
only the invalid 2026-13-40 yields no date. -/
theorem C4_date_extractor :
    (∀ text s, normalize_date text = some s →
       ∃ y mo d, validDate y mo d = true ∧ s = isoFormat y mo d) ∧
    (∀ text y mo d, searchDate matchISOAt none text.data = some (y, mo, d) →
       validDate y mo d = true → normalize_date text = some (isoFormat y mo d)) ∧
    normalize_date "pay 02/26/2026 ok" = some "2026-02-26" ∧
    normalize_date "due 2026-13-40 x" = none ∧
    normalize_date "02/26/2026 and 2026-03-01" = some "2026-03-01" ∧
    normalize_date "2026-02-26" = some "2026-02-26" := by
  refine ⟨?_, ?_, by decide, by decide, by decide, by decide⟩
  · intro text s h
    obtain ⟨y, mo, d, _, hv, hs⟩ := normalize_date_shape h
    exact ⟨y, mo, d, hv, hs⟩
  · intro text y mo d h1 hv
    unfold normalize_date
    rw [h1, Option.some_bind]
    unfold mkDate
    simp [hv]

/-- C4 witness: the universal part instantiated on the ISO sample date. -/
theorem C4_witness :
    ∃ y mo d, validDate y mo d = true ∧ ("2026-02-26" : String) = isoFormat y mo d :=
  C4_date_extractor.1 "2026-02-26" "2026-02-26" (by decide)

/-- C10: both pattern families anchor the year as literal 20 plus two
digits, so any extracted date has a year between 2000 and 2099, and
well-formed dates outside that window are never extracted. -/
theorem C10_year_window :
    (∀ text s, normalize_date text = some s →
       ∃ y mo d, 2000 ≤ y ∧ y ≤ 2099 ∧ validDate y mo d = true ∧ s = isoFormat y mo d) ∧
    normalize_date "dated 1999-05-06" = none ∧
    normalize_date "dated 2100-01-02" = none ∧
    normalize_date "12/31/1999" = none ∧
    normalize_date "2099-12-31" = some "2099-12-31" := by
  refine ⟨?_, by decide, by decide, by decide, by decide⟩
  intro text s h
  obtain ⟨y, mo, d, hor, hv, hs⟩ := normalize_date_shape h
  have hy : 2000 ≤ y ∧ y ≤ 2099 := by
    rcases hor with h1 | h1
    · exact searchDate_some (fun p cs r hr => matchISOAt_year hr) none text.data (y, mo, d) h1
    · exact searchDate_some (fun p cs r hr => matchUSAt_year hr) none text.data (y, mo, d) h1
  exact ⟨y, mo, d, hy.1, hy.2, hv, hs⟩

/-- C10 witness: the universal part instantiated on a concrete in-window
extraction. -/
theorem C10_witness :
    ∃ y mo d, 2000 ≤ y ∧ y ≤ 2099 ∧ validDate y mo d = true ∧
      ("2026-02-26" : String) = isoFormat y mo d :=
  C10_year_window.1 "x 2026-02-26" "2026-02-26" (by decide)

/-- C5: labelled amounts beat bare symbol-prefixed amounts, the first
occurrence within the first matching family wins, the four currency symbols
map to their fixed codes, a decimal comma is normalised, and no match means
no total and no currency rather than zero. -/
theorem C5_amount_extractor :
    (∀ text, (parse_total_and_currency text).1 = none →
       parse_total_and_currency text = (none, none)) ∧
    parse_total_and_currency "Total: $12.34" = (some (mkRat 1234 100), some "USD") ∧
    parse_total_and_currency "$5.00" = (some (mkRat 5 1), some "USD") ∧
    parse_total_and_currency "Total: 12,34" = (some (mkRat 1234 100), none) ∧
    parse_total_and_currency "$9.99 but Total: 12.34" = (some (mkRat 1234 100), none) ∧
    parse_total_and_currency "€3,50" = (some (mkRat 35 10), some "EUR") ∧
    parse_total_and_currency "£2.00 x" = (some (mkRat 2 1), some "GBP") ∧
    parse_total_and_currency "¥7.77" = (some (mkRat 777 100), some "CNY") ∧
    parse_total_and_currency "no amount here" = (none, none) := by
  refine ⟨?_, by decide, by decide, by decide, by decide, by decide, by decide, by decide, by decide⟩
  intro text h
  unfold parse_total_and_currency at h ⊢
  rcases h1 : tryAmountPattern labelledAmountAt text.data with _ | ⟨v, c⟩ <;>
    rcases h2 : tryAmountPattern bareAmountAt text.data with _ | ⟨v2, c2⟩ <;>
      simp_all

/-- C5 witness: the universal part instantiated on unmatched text. -/
theorem C5_witness : parse_total_and_currency "no amount here" = (none, none) :=
  C5_amount_extractor.1 "no amount here" (by decide)

lemma catLookup_mem (blob : String) (l : List (String × List String)) :
    catLookup blob l = "other" ∨ catLookup blob l ∈ l.map Prod.fst := by
  induction l with
  | nil => exact Or.inl rfl
  | cons p rest ih =>
    obtain ⟨cat, kws⟩ := p
    rw [catLookup]
    split_ifs with hc
    · exact Or.inr (List.mem_cons_self _ _)
    · rcases ih with h | h
      · exact Or.inl h
      · exact Or.inr (List.mem_cons_of_mem _ h)

/-- C6: category inference lower-cases the vendor-plus-text blob and walks
the fixed mapping in order, returning the first category with a keyword
substring hit and other when none hits; Whole Foods with empty text is
grocery, and a vendor containing shop with text containing restaurant is
dining because dining precedes shopping in the mapping order. -/
theorem C6_auto_category :
    (∀ v t, auto_category v t ∈
       ["grocery", "dining", "transport", "health", "shopping", "travel", "utilities", "other"]) ∧
    auto_category (some "Whole Foods") "" = "grocery" ∧
    auto_category (some "Unknown Shop") "Best restaurant in town" = "dining" ∧
    auto_category (some "Unknown Shop") "" = "shopping" ∧
    auto_category none "zzz qqq" = "other" := by
  refine ⟨?_, by decide, by decide, by decide, by decide⟩
  intro v t
  rcases catLookup_mem (strLower ((v.getD "") ++ " " ++ t)) CATEGORIES with h | h
  · rw [auto_category, h]
    decide
  · rw [auto_category]
    rw [show CATEGORIES.map Prod.fst =
          ["grocery", "dining", "transport", "health", "shopping", "travel", "utilities"] from rfl] at h
    simp only [List.mem_cons, List.not_mem_nil, or_false] at h ⊢
    tauto

lemma pickVendor_length {l : List String} {v : String} (h : pickVendor l = some v) :
    2 ≤ v.length ∧ v.length ≤ 48 := by
  induction l with
  | nil => simp [pickVendor] at h
  | cons ln rest ih =>
    rw [pickVendor] at h
    split_ifs at h with h1 h2
    · exact ih h
    · cases h
      simpa [Bool.and_eq_true, decide_eq_true_eq] using h2
    · exact ih h

lemma strTake_le (s : String) (n : Nat) : (strTake s n).length ≤ n := by
  show (s.data.take n).length ≤ n
  exact List.length_take_le n s.data

/-- C8: the vendor extractor looks at the first six non-blank lines only,
skips boilerplate lines, returns the first remaining line of length 2 to 48,
falls back to the first non-blank line truncated to 48 characters when the
six are exhausted, and reports no vendor exactly when the text has no
non-blank line; any reported vendor has at most 48 characters. -/
theorem C8_parse_vendor :
    (∀ text, (parse_vendor text = none ↔ pyLines text = []) ∧
       ∀ v, parse_vendor text = some v → v.length ≤ 48) ∧
    parse_vendor "RECEIPT\nGreen Fresh Supermarket\nTotal $5" = some "Green Fresh Supermarket" ∧
    parse_vendor "X\nGood Vendor" = some "Good Vendor" ∧
    parse_vendor "AAAAAAAAAAAAAAAAAAAAAAAAAAAAAAAAAAAAAAAAAAAAAAAAA\nGood Vendor" = some "Good Vendor" ∧
    parse_vendor " \n  \n" = none ∧
    parse_vendor "RECEIPT RECEIPT RECEIPT RECEIPT RECEIPT RECEIPT RECEIPT RECEIPT\nInvoice A\nTax B\nTotal C\nDate D\nThank E\nNice Vendor" =
      some "RECEIPT RECEIPT RECEIPT RECEIPT RECEIPT RECEIPT " := by
  refine ⟨?_, by decide, by decide, by decide, by decide, by decide⟩
  intro text
  constructor
  · constructor
    · intro h
      cases hl : pyLines text with
      | nil => rfl
      | cons l0 rest =>
        unfold parse_vendor at h
        rw [hl] at h
        dsimp only at h
        cases hp : pickVendor ((l0 :: rest).take 6) with
        | some v => rw [hp] at h; simp at h
        | none => rw [hp] at h; simp at h
    · intro h
      unfold parse_vendor
      rw [h]
  · intro v h
    unfold parse_vendor at h
    cases hl : pyLines text with
    | nil => rw [hl] at h; simp at h
    | cons l0 rest =>
      rw [hl] at h
      dsimp only at h
      cases hp : pickVendor ((l0 :: rest).take 6) with
      | some v0 =>
        rw [hp] at h
        cases h
        exact (pickVendor_length hp).2
      | none =>
        rw [hp] at h
        cases h
        exact strTake_le l0 48

/-- C8 witness: the length bound instantiated on a concrete extraction. -/
theorem C8_witness : ("Cafe X" : String).length ≤ 48 :=
  (C8_parse_vendor.1 "Cafe X").2 "Cafe X" (by decide)

/-- C3 counterexample: two files with byte-identical content but different
extensions receive the same digest yet different destination paths, so the
copy is not filename-independent on the path component. -/
theorem C3_same_content_different_path :
    (⟨"a.jpg", [7]⟩ : ImageFile).content = (⟨"b.png", [7]⟩ : ImageFile).content ∧
    (copy_image_dedup demoDigest ⟨"a.jpg", [7]⟩).2 = (copy_image_dedup demoDigest ⟨"b.png", [7]⟩).2 ∧
    (copy_image_dedup demoDigest ⟨"a.jpg", [7]⟩).1 ≠ (copy_image_dedup demoDigest ⟨"b.png", [7]⟩).1 := by
  decide

/-- C3 amended: byte-identical content always yields the same content hash
regardless of the filenames; the destination path also coincides whenever
the lower-cased original extensions agree (an absent extension defaulting to
.jpg), the extension being the only filename-dependent part. -/
theorem C3_dedup_copy_amended (sha256 : List Nat → String) (s1 s2 : ImageFile)
    (hc : s1.content = s2.content) :
    (copy_image_dedup sha256 s1).2 = (copy_image_dedup sha256 s2).2 ∧
    (strLower (pySuffix s1.name) = strLower (pySuffix s2.name) →
      copy_image_dedup sha256 s1 = copy_image_dedup sha256 s2) := by
  constructor
  · simp [copy_image_dedup, hc]
  · intro he
    simp [copy_image_dedup, hc, he]

/-- C3 witness: the amended statement applied to concrete files whose
extensions agree up to case. -/
theorem C3_witness :
    copy_image_dedup demoDigest ⟨"a.JPG", [7]⟩ = copy_image_dedup demoDigest ⟨"b.jpg", [7]⟩ :=
  (C3_dedup_copy_amended demoDigest ⟨"a.JPG", [7]⟩ ⟨"b.jpg", [7]⟩ (by decide)).2 (by decide)

/-- C7: deleting a stored record without the confirmation flag reports
confirmation-required and mutates nothing, so the record is still
retrievable; with the flag the record is removed and a subsequent get
reports not-found; an unknown identifier reports not-found. -/
theorem C7_delete_confirmation (db : DB) (i : Nat) (r : Receipt) (dimg : Bool)
    (h : get_receipt db i = some r) :
    delete_receipt db i false dimg = (db, DelResult.confirmRequired) ∧
    get_receipt (delete_receipt db i false dimg).1 i = some r ∧
    (delete_receipt db i true dimg).2 = DelResult.ok ∧
    get_receipt (delete_receipt db i true dimg).1 i = none ∧
    ∀ j y d2, get_receipt db j = none → delete_receipt db j y d2 = (db, DelResult.notFound) := by
  have hf : db.receipts.find? (fun x => x.id == i) = some r := h
  have h1 : delete_receipt db i false dimg = (db, DelResult.confirmRequired) := by
    unfold delete_receipt
    rw [hf]
    rfl
  have h3 : delete_receipt db i true dimg =
      ({ receipts := db.receipts.filter (fun x => x.id ≠ i), nextId := db.nextId },
       DelResult.ok) := by
    unfold delete_receipt
    rw [hf]
    rfl
  refine ⟨h1, ?_, ?_, ?_, ?_⟩
  · rw [h1]
    exact h
  · rw [h3]
  · rw [h3]
    show (db.receipts.filter (fun x => x.id ≠ i)).find? (fun x => x.id == i) = none
    rw [List.find?_eq_none]
    intro x hx
    have hne := (List.mem_filter.mp hx).2
    simp only [decide_eq_true_eq] at hne
    simp [hne]
  · intro j y d2 hj
    have hfj : db.receipts.find? (fun x => x.id == j) = none := hj
    unfold delete_receipt
    rw [hfj]

/-- C7 witness: the deletion contract on a concrete one-record store. -/
theorem C7_witness :
    delete_receipt db7 1 false false = (db7, DelResult.confirmRequired) ∧
    get_receipt (delete_receipt db7 1 false false).1 1 = some r7 ∧
    (delete_receipt db7 1 true false).2 = DelResult.ok ∧
    get_receipt (delete_receipt db7 1 true false).1 1 = none ∧
    delete_receipt db7 2 true false = (db7, DelResult.notFound) :=
  let t := C7_delete_confirmation db7 1 r7 false (by decide)
  ⟨t.1, t.2.1, t.2.2.1, t.2.2.2.1, t.2.2.2.2 2 true false (by decide)⟩

lemma add_receipt_dup (sha256 : List Nat → String) (db : DB) (img : ImageFile)
    (a : AddArgs) (o : Option String) (r : Receipt)
    (h : db.receipts.find? (fun x => x.image_sha256 == (copy_image_dedup sha256 img).2) = some r) :
    add_receipt sha256 db img a o = (db, AddResult.dup r.id (copy_image_dedup sha256 img).1) := by
  simp only [add_receipt]
  rw [h]

lemma add_receipt_new (sha256 : List Nat → String) (db : DB) (img : ImageFile)
    (a : AddArgs) (o : Option String)
    (h : db.receipts.find? (fun x => x.image_sha256 == (copy_image_dedup sha256 img).2) = none) :
    ∃ row : Receipt,
      (add_receipt sha256 db img a o).1 =
        { receipts := db.receipts ++ [row], nextId := db.nextId + 1 } ∧
      row.id = db.nextId ∧
      row.image_sha256 = (copy_image_dedup sha256 img).2 ∧
      (∀ t, a.total = some t → row.total = some t) := by
  simp only [add_receipt]
  rw [h]
  refine ⟨_, rfl, rfl, rfl, ?_⟩
  intro t ht
  rw [ht]

/-- C1: after any ingestion, ingesting byte-identical content again (with
any filenames, explicit fields or extraction results) changes nothing and
reports duplicate status with the identifier of a stored record carrying
that content digest; the content-hash uniqueness invariant is preserved. -/
theorem C1_duplicate_ingestion (sha256 : List Nat → String) (db db1 : DB)
    (img1 img2 : ImageFile) (a1 a2 : AddArgs) (o1 o2 : Option String) (r1 : AddResult)
    (hc : img1.content = img2.content) (hu : UniqueHash db)
    (h1 : add_receipt sha256 db img1 a1 o1 = (db1, r1)) :
    (∃ rid, add_receipt sha256 db1 img2 a2 o2 =
        (db1, AddResult.dup rid (copy_image_dedup sha256 img2).1) ∧
      ∃ r, r ∈ db1.receipts ∧ r.id = rid ∧ r.image_sha256 = sha256 img2.content) ∧
    UniqueHash db1 := by
  have hcd : (copy_image_dedup sha256 img2).2 = (copy_image_dedup sha256 img1).2 := by
    simp [copy_image_dedup, hc]
  cases hf : db.receipts.find? (fun x => x.image_sha256 == (copy_image_dedup sha256 img1).2) with
  | some r0 =>
    have he := add_receipt_dup sha256 db img1 a1 o1 r0 hf
    rw [h1] at he
    have hdb : db1 = db := congrArg Prod.fst he
    subst hdb
    refine ⟨⟨r0.id, ?_, r0, List.mem_of_find?_eq_some hf, rfl, ?_⟩, hu⟩
    · apply add_receipt_dup
      rw [hcd]
      exact hf
    · have hsome := List.find?_some hf
      have h2 : r0.image_sha256 = (copy_image_dedup sha256 img1).2 := by simpa using hsome
      rw [h2, ← hcd]
      rfl
  | none =>
    obtain ⟨row, hres, hid, hsha, _⟩ := add_receipt_new sha256 db img1 a1 o1 hf
    rw [h1] at hres
    have hdb : db1 = { receipts := db.receipts ++ [row], nextId := db.nextId + 1 } := hres
    subst hdb
    constructor
    · refine ⟨row.id, ?_, row, List.mem_append_right _ (List.mem_singleton.mpr rfl), rfl, ?_⟩
      · apply add_receipt_dup
        show (db.receipts ++ [row]).find? (fun x => x.image_sha256 == (copy_image_dedup sha256 img2).2) = some row
        rw [List.find?_append]
        have hl : db.receipts.find? (fun x => x.image_sha256 == (copy_image_dedup sha256 img2).2) = none := by
          rw [hcd]
          exact hf
        rw [hl, Option.none_or]
        have hbeq : (row.image_sha256 == (copy_image_dedup sha256 img2).2) = true := by
          rw [hcd, hsha]
          exact beq_self_eq_true _
        exact List.find?_cons_of_pos _ hbeq
      · rw [hsha, ← hcd]
        rfl
    · show ((db.receipts ++ [row]).map Receipt.image_sha256).Nodup
      rw [List.map_append, List.nodup_append]
      refine ⟨hu, List.nodup_singleton _, ?_⟩
      intro a ha hb
      rw [List.map_singleton, List.mem_singleton] at hb
      obtain ⟨x, hx, hxa⟩ := List.mem_map.mp ha
      have hnone := List.find?_eq_none.mp hf x hx
      apply hnone
      simp [hxa, hb, hsha]

/-- C1 witness: the contract applied to the empty store, a first ingestion
of a 7-byte image, and a second ingestion of the same bytes under a
different filename with different explicit fields. -/
theorem C1_witness :
    (∃ rid, add_receipt demoDigest c1DB1 ⟨"b.png", [7]⟩ c1Args2 none =
        (c1DB1, AddResult.dup rid (copy_image_dedup demoDigest ⟨"b.png", [7]⟩).1) ∧
      ∃ r, r ∈ c1DB1.receipts ∧ r.id = rid ∧ r.image_sha256 = demoDigest [7]) ∧
    UniqueHash c1DB1 :=
  C1_duplicate_ingestion demoDigest emptyDB c1DB1 ⟨"a.jpg", [7]⟩ ⟨"b.png", [7]⟩ noArgs c1Args2
    none none
    (AddResult.ok 1 none none none none "other" "data/receipts/images/d-7.jpg")
    (by decide) (by decide) (by decide)

/-- C2: a supplied numeric total inside the closed range 0 to 1000000 is
accepted by the JSON adapter and, for fresh image content, the stored record
read back under the assigned identifier carries exactly that total; a total
outside the range is rejected with the invalid-total validation error before
any write, leaving the store untouched. -/
theorem C2_total_range (sha256 : List Nat → String) (db : DB) (data : HandleData)
    (img : ImageFile) (ocr : Option String) (v : String) (t : Rat)
    (hv : data.vendor = some v) (hsv : sanitize_string v 100 ≠ "")
    (ht : data.total = some t)
    (hip : validate_path (data.image.getD "") ≠ "")
    (hfresh : db.receipts.find? (fun x => x.image_sha256 == (copy_image_dedup sha256 img).2) = none)
    (hwf : WFIds db) :
    ((0 ≤ t ∧ t ≤ 1000000) →
       (handle sha256 db data img ocr).2 = HandleResult.ok ∧
       ∃ r, get_receipt (handle sha256 db data img ocr).1 db.nextId = some r ∧
         r.total = some t) ∧
    ((t < 0 ∨ 1000000 < t) →
       handle sha256 db data img ocr = (db, HandleResult.err "invalid total amount")) := by
  constructor
  · intro hr
    have hnot : ¬(t < 0 ∨ t > 1000000) := by
      rintro (hb | hb)
      · exact absurd hr.1 (not_le.mpr hb)
      · exact absurd hr.2 (not_le.mpr hb)
    simp only [handle]
    rw [hv]
    dsimp only
    rw [ht]
    dsimp only
    rw [if_neg hsv, if_neg hnot, if_neg hip]
    obtain ⟨row, hres, hid, _, htot⟩ := add_receipt_new sha256 db img
      { text := optFlag (sanitize_string (data.text.getD "") 1000),
        vendor := some (sanitize_string v 100),
        date := optFlag (sanitize_string (data.date.getD "") 20),
        total := some t,
        currency := optFlag (sanitize_string (data.currency.getD "CAD") 10),
        category := optFlag (sanitize_string (data.category.getD "other") 50) }
      ocr hfresh
    refine ⟨rfl, row, ?_, htot t rfl⟩
    show get_receipt (add_receipt sha256 db img _ ocr).1 db.nextId = some row
    rw [hres]
    show (db.receipts ++ [row]).find? (fun r => r.id == db.nextId) = some row
    rw [List.find?_append]
    have hl : db.receipts.find? (fun r => r.id == db.nextId) = none := by
      rw [List.find?_eq_none]
      intro x hx
      have := hwf x hx
      simp only [beq_iff_eq]
      omega
    rw [hl, Option.none_or]
    have hbeq : (row.id == db.nextId) = true := by
      rw [hid]
      exact beq_self_eq_true _
    exact List.find?_cons_of_pos _ hbeq
  · intro hr
    simp only [handle]
    rw [hv]
    dsimp only
    rw [ht]
    dsimp only
    rw [if_neg hsv, if_pos hr]

/-- C2 witness: an in-range total of 5 is ingested and read back exactly,
and a negative total is rejected without touching the empty store. -/
theorem C2_witness :
    ((handle demoDigest emptyDB (c2Data (mkRat 5 1)) ⟨"r.jpg", [3]⟩ none).2 = HandleResult.ok ∧
     ∃ r, get_receipt (handle demoDigest emptyDB (c2Data (mkRat 5 1)) ⟨"r.jpg", [3]⟩ none).1
         emptyDB.nextId = some r ∧ r.total = some (mkRat 5 1)) ∧
    handle demoDigest emptyDB (c2Data (mkRat (-1) 1)) ⟨"r.jpg", [3]⟩ none =
      (emptyDB, HandleResult.err "invalid total amount") :=
  ⟨(C2_total_range demoDigest emptyDB (c2Data (mkRat 5 1)) ⟨"r.jpg", [3]⟩ none "Shop"
      (mkRat 5 1) rfl (by decide) rfl (by decide) rfl (by decide)).1 ⟨by decide, by decide⟩,
   (C2_total_range demoDigest emptyDB (c2Data (mkRat (-1) 1)) ⟨"r.jpg", [3]⟩ none "Shop"
      (mkRat (-1) 1) rfl (by decide) rfl (by decide) rfl (by decide)).2 (Or.inl (by decide))⟩

lemma mem_insertRowDesc {x z : GroupRow} {l : List GroupRow}
    (h : z ∈ insertRowDesc x l) : z = x ∨ z ∈ l := by
  induction l with
  | nil => simpa [insertRowDesc] using h
  | cons y t ih =>
    rw [insertRowDesc] at h
    split_ifs at h with hc
    · rcases List.mem_cons.mp h with h1 | h1
      · exact Or.inl h1
      · exact Or.inr h1
    · rcases List.mem_cons.mp h with h1 | h1
      · exact Or.inr (h1 ▸ List.mem_cons_self y t)
      · rcases ih h1 with h2 | h2
        · exact Or.inl h2
        · exact Or.inr (List.mem_cons_of_mem y h2)

lemma pairwise_insertRowDesc {x : GroupRow} {l : List GroupRow}
    (h : List.Pairwise (fun a b => b.total ≤ a.total) l) :
    List.Pairwise (fun a b => b.total ≤ a.total) (insertRowDesc x l) := by
  induction l with
  | nil => simp [insertRowDesc]
  | cons y t ih =>
    rw [insertRowDesc]
    rcases List.pairwise_cons.mp h with ⟨hy, ht⟩
    split_ifs with hc
    · refine List.pairwise_cons.mpr ⟨?_, h⟩
      intro z hz
      rcases List.mem_cons.mp hz with h1 | h1
      · rw [h1]
        exact le_of_lt hc
      · exact le_trans (hy z h1) (le_of_lt hc)
    · refine List.pairwise_cons.mpr ⟨?_, ih ht⟩
      intro z hz
      rcases mem_insertRowDesc hz with h1 | h1
      · rw [h1]
        exact not_lt.mp hc
      · exact hy z h1

lemma sorted_sortRowsDesc (l : List GroupRow) :
    List.Pairwise (fun a b => b.total ≤ a.total) (sortRowsDesc l) := by
  induction l with
  | nil => simp [sortRowsDesc]
  | cons x t ih => exact pairwise_insertRowDesc ih

lemma perm_insertRowDesc (x : GroupRow) (l : List GroupRow) :
    (insertRowDesc x l).Perm (x :: l) := by
  induction l with
  | nil => simp [insertRowDesc]
  | cons y t ih =>
    rw [insertRowDesc]
    split_ifs with hc
    · exact List.Perm.refl _
    · exact (List.Perm.cons y ih).trans (List.Perm.swap x y t)

lemma perm_sortRowsDesc (l : List GroupRow) : (sortRowsDesc l).Perm l := by
  induction l with
  | nil => exact List.Perm.refl _
  | cons x t ih => exact (perm_insertRowDesc x (sortRowsDesc t)).trans (List.Perm.cons x ih)

lemma filter_length_eq_count (key : Receipt → String) (rs : List Receipt) (k : String) :
    (rs.filter (fun r => key r = k)).length = (rs.map key).count k := by
  rw [List.count_eq_countP, List.countP_map, ← List.countP_eq_length_filter]
  apply List.countP_congr
  intro a _
  simp [Function.comp, beq_iff_eq]

lemma sum_counts_groupRows (key : Receipt → String) (rs : List Receipt) :
    ((groupRows key rs).map GroupRow.count).sum = rs.length := by
  unfold groupRows
  rw [((perm_sortRowsDesc _).map GroupRow.count).sum_eq, List.map_map]
  have hmc : ((rs.map key).dedup).map
      (GroupRow.count ∘ (fun k =>
        ({ key := k, count := (rs.filter (fun r => key r = k)).length,
           total := round2 (sumTotals (rs.filter (fun r => key r = k))) } : GroupRow))) =
      ((rs.map key).dedup).map (fun k => (rs.map key).count k) :=
    List.map_congr_left (fun a _ => filter_length_eq_count key rs a)
  rw [hmc, List.sum_map_count_dedup_eq_length, List.length_map]

/-- C9: for a well-formed month key, summary is the pure pair of the
by-category and by-vendor aggregations and leaves the store untouched; the
per-category counts sum to the number of records in the month, both
aggregations are ordered by descending total, the vendor list respects the
top-N limit, and on the concrete three-record February 2026 store with
totals 10, 20 and 30 over two categories, the per-category sums total 60
and the counts sum to 3. -/
theorem C9_monthly_summary :
    (∀ db month lim, monthOk month = true →
       summary db month lim = some { month := month, byCategory := by_category db month,
                                     byVendor := by_vendor db month lim } ∧
       ((by_category db month).map GroupRow.count).sum = (monthRecords db month).length ∧
       List.Pairwise (fun a b => b.total ≤ a.total) (by_category db month) ∧
       List.Pairwise (fun a b => b.total ≤ a.total) (by_vendor db month lim) ∧
       (by_vendor db month lim).length ≤ lim ∧
       summaryOp db month lim = (db, summary db month lim)) ∧
    ((by_category db3 "2026-02").map GroupRow.total).sum = 60 ∧
    ((by_category db3 "2026-02").map GroupRow.count).sum = 3 ∧
    (by_category db3 "2026-02").length = 2 ∧
    ((by_vendor db3 "2026-02" 10).map GroupRow.total).sum = 60 := by
  refine ⟨?_, ?_, by decide, by decide, ?_⟩
  · intro db month lim hm
    refine ⟨?_, sum_counts_groupRows _ _, sorted_sortRowsDesc _, ?_, List.length_take_le _ _, rfl⟩
    · unfold summary
      rw [if_pos hm]
    · exact List.Pairwise.sublist (List.take_sublist _ _) (sorted_sortRowsDesc _)
  · have hcat : by_category db3 "2026-02" =
        [{ key := "dining", count := 1, total := mkRat 30 1 },
         { key := "grocery", count := 2, total := mkRat 30 1 }] := by decide
    rw [hcat]
    simp only [List.map_cons, List.map_nil, List.sum_cons, List.sum_nil]
    norm_num [mkRat]
  · have hven : by_vendor db3 "2026-02" 10 =
        [{ key := "Cafe X", count := 1, total := mkRat 30 1 },
         { key := "FreshCo", count := 2, total := mkRat 30 1 }] := by decide
    rw [hven]
    simp only [List.map_cons, List.map_nil, List.sum_cons, List.sum_nil]
    norm_num [mkRat]

/-- C9 witness: the universal part instantiated on the concrete
three-record store and the month key 2026-02. -/
theorem C9_witness :
    summary db3 "2026-02" 10 = some { month := "2026-02", byCategory := by_category db3 "2026-02",
                                      byVendor := by_vendor db3 "2026-02" 10 } ∧
    ((by_category db3 "2026-02").map GroupRow.count).sum = (monthRecords db3 "2026-02").length ∧
    summaryOp db3 "2026-02" 10 = (db3, summary db3 "2026-02" 10) :=
  let t := C9_monthly_summary.1 db3 "2026-02" 10 (by decide)
  ⟨t.1, t.2.1, t.2.2.2.2.2⟩
